import Mathlib

/-!
Verification development for the BinanceTool repository.

Shallow embedding of the two source modules the claims are about:
  * `src/services/binanceService.ts` — the client-side stream aggregator,
    snapshot cascade, lazy detail fetcher and reconnect scheduler;
  * `src/api/snapshot.js` — the server-side batch aggregator.

Modelling conventions:
  * Numeric payload fields that the source obtains via `parseFloat` are
    modelled as rationals (`Rat`); the embedding carries the parsed value
    directly, since no claim depends on the textual form of a number.
  * JavaScript `Map` objects are modelled as functions `String → Option v`
    (`Map.set` is pointwise update, `Map.get`/`Map.has` are application);
    `Set` objects of strings are modelled as `List String` with
    membership/insert/delete mirroring `has`/`add`/`delete`.
  * `undefined` optional fields (`changePercent1h`/`changePercent4h`) and
    JSON `null` are both modelled as `none`.
  * Network effects are modelled by explicit outcome parameters: each
    fetch that the source performs is represented by a value describing
    what the source's own control flow can observe about it (rejection,
    non-ok status, parsed body).
-/

/-! ## String helpers

JavaScript `String.prototype.includes` and `String.prototype.endsWith`,
implemented on character lists so that they reduce under `decide`. -/

/-- `listStarts needle hay` — `needle` is an initial segment of `hay`. -/
def listStarts : List Char → List Char → Bool
  | [], _ => true
  | _ :: _, [] => false
  | a :: as, b :: bs => a = b && listStarts as bs

/-- `listHasSub needle hay` — `needle` occurs as a contiguous run in `hay`. -/
def listHasSub (needle : List Char) : List Char → Bool
  | [] => listStarts needle []
  | b :: bs => listStarts needle (b :: bs) || listHasSub needle bs

/-- JS `s.includes(sub)`. -/
def strIncludes (s sub : String) : Bool :=
  listHasSub sub.toList s.toList

/-- JS `s.endsWith(suf)`: the reversed suffix is an initial segment of the
reversed string. -/
def strEndsWith (s suf : String) : Bool :=
  listStarts suf.toList.reverse s.toList.reverse

/-! ## Quote-asset catalog (`src/services/binanceService.ts`, lines 4-22) -/

/-- `KNOWN_QUOTE_ASSETS` from the source, in its priority order. -/
def KNOWN_QUOTE_ASSETS : List String :=
  ["USDT", "FDUSD", "USDC", "TUSD", "BUSD", "USDP", "DAI", "EURI", "AEUR", "VAI", "IDRT",
   "BTC", "ETH", "BNB", "SOL", "XRP", "TRX", "DOGE", "DOT",
   "EUR", "TRY", "BRL", "JPY", "ZAR", "IDR", "RUB", "GBP", "AUD", "COP", "MXN", "ARS",
   "NGN", "UAH", "PLN", "RON", "KZT", "VND"]

/-- `getQuoteAsset`: the source's `for`-loop with early `return` is the
first catalog entry that is a suffix of the symbol (`List.find?`). -/
def getQuoteAsset (symbol : String) : Option String :=
  KNOWN_QUOTE_ASSETS.find? (fun asset => strEndsWith symbol asset)

/-! ## Record store (`TickerData`, `tickerMap`) -/

/-- The `TickerData` record of the client service: `changePercent1h` and
`changePercent4h` are optional (absent = the JS property is `undefined`). -/
structure TickerData where
  symbol : String
  price : Rat
  volume : Rat
  changePercent24h : Rat
  changePercent1h : Option Rat
  changePercent4h : Option Rat
deriving DecidableEq

/-- The `tickerMap : Map<string, TickerData>` of the service. -/
def TickerMap : Type := String → Option TickerData

/-- The empty map (state of a freshly constructed service). -/
def TickerMap.empty : TickerMap := fun _ => none

/-- `map.set(k, v)`. -/
def TickerMap.set (m : TickerMap) (k : String) (v : TickerData) : TickerMap :=
  fun s => if s = k then some v else m s

@[simp] theorem tickerMapEmpty_apply (s : String) : TickerMap.empty s = none := rfl

@[simp] theorem tickerMapSet_apply (m : TickerMap) (k : String) (v : TickerData)
    (s : String) : m.set k v s = if s = k then some v else m s := rfl

/-! ## Stream frames (`connectWebSocket`, `ws.onmessage`) -/

/-- One ticker item of a stream payload: symbol `s`, last price `c`,
quote volume `q`, percent change `P` (numbers modelled as parsed). -/
structure StreamItem where
  s : String
  c : Rat
  q : Rat
  P : Rat
deriving DecidableEq

/-- `message.data` is either a single update or an array of updates. -/
inductive StreamData
  | one (item : StreamItem)
  | arr (items : List StreamItem)
deriving DecidableEq

/-- `rawData = Array.isArray(message.data) ? message.data : [message.data]`. -/
def StreamData.toList : StreamData → List StreamItem
  | .one i => [i]
  | .arr l => l

/-- A combined-stream envelope; `data := none` models a frame with no
`data` property (the handler returns early on it). -/
structure StreamMessage where
  stream : String
  data : Option StreamData
deriving DecidableEq

/-- The fresh record created for a symbol the map does not know yet:
`{ symbol: item.s, price: 0, volume: 0, changePercent24h: 0 }`
(1h/4h properties absent). -/
def defaultRecord (item : StreamItem) : TickerData :=
  { symbol := item.s, price := 0, volume := 0, changePercent24h := 0,
    changePercent1h := none, changePercent4h := none }

/-- The per-item update of the `onmessage` handler: branch structure and
order exactly as in the source (`is24h` first, then `is1h`, then `is4h`,
with `is24h = !is1h && !is4h`). -/
def updatedStreamRecord (is1h is4h : Bool) (m : TickerMap) (item : StreamItem) :
    TickerData :=
  let is24h := !is1h && !is4h
  let existing := (m item.s).getD (defaultRecord item)
  if is24h then
    { existing with price := item.c, volume := item.q, changePercent24h := item.P }
  else if is1h then
    { existing with price := item.c, changePercent1h := some item.P }
  else if is4h then
    { existing with price := item.c, changePercent4h := some item.P }
  else existing

/-- `this.tickerMap.set(symbol, existing)` after the per-item update. -/
def mergeStreamItem (is1h is4h : Bool) (m : TickerMap) (item : StreamItem) :
    TickerMap :=
  m.set item.s (updatedStreamRecord is1h is4h m item)

/-- Observable events of the handler: one `commit` per `tickerMap.set`,
one `notify` per `this.notify()` call. -/
inductive WsEvent
  | commit (sym : String) (rec : TickerData)
  | notify
deriving DecidableEq

/-- The symbol of a `commit` event (`none` for `notify`); used to state
trace shapes without repeating record contents. -/
def WsEvent.symbolOf : WsEvent → Option String
  | .commit sym _ => some sym
  | .notify => none

/-- One iteration of the handler's `rawData.forEach` body, threading the
map and the event trace. -/
def wsStep (is1h is4h : Bool) (acc : TickerMap × List WsEvent) (item : StreamItem) :
    TickerMap × List WsEvent :=
  (mergeStreamItem is1h is4h acc.1 item,
   acc.2 ++ [WsEvent.commit item.s (updatedStreamRecord is1h is4h acc.1 item)])

/-- The `onmessage` handler for one frame: returns the new map and the
ordered list of observable events it produced.  A frame with no `data`
is a no-op (early return).  Otherwise every item of the payload is merged
(in payload order, each ending in a `tickerMap.set`) and then a single
`notify()` is performed. -/
def onMessage (m : TickerMap) (msg : StreamMessage) : TickerMap × List WsEvent :=
  match msg.data with
  | none => (m, [])
  | some d =>
    let is1h := strIncludes msg.stream "1h"
    let is4h := strIncludes msg.stream "4h"
    let r := d.toList.foldl (wsStep is1h is4h) (m, [])
    (r.1, r.2 ++ [WsEvent.notify])

/-- Processing a sequence of frames (map component only). -/
def processMessages (m : TickerMap) (msgs : List StreamMessage) : TickerMap :=
  msgs.foldl (fun m msg => (onMessage m msg).1) m

/-! ## Window classification (C10) and the window-indexed view of the merge -/

/-- The three reporting windows. -/
inductive Window
  | w24
  | w1
  | w4
deriving DecidableEq

/-- Classification from the two substring tests, mirroring the branch
order of the handler (`is1h` wins over `is4h`; default is 24h). -/
def classifyOf (is1h is4h : Bool) : Window :=
  if is1h then .w1 else if is4h then .w4 else .w24

/-- Frame classification as a function of the stream name alone. -/
def classifyStream (name : String) : Window :=
  classifyOf (strIncludes name "1h") (strIncludes name "4h")

/-- The per-item update, indexed by the window classification. -/
def updatedRecordW : Window → TickerData → StreamItem → TickerData
  | .w24, ex, item =>
    { ex with price := item.c, volume := item.q, changePercent24h := item.P }
  | .w1, ex, item => { ex with price := item.c, changePercent1h := some item.P }
  | .w4, ex, item => { ex with price := item.c, changePercent4h := some item.P }

/-- One classified item applied to the store. -/
def stepItemW (m : TickerMap) (p : Window × StreamItem) : TickerMap :=
  m.set p.2.s (updatedRecordW p.1 ((m p.2.s).getD (defaultRecord p.2)) p.2)

/-- Folding a list of classified items into the store. -/
def processItemsW (m : TickerMap) (l : List (Window × StreamItem)) : TickerMap :=
  l.foldl stepItemW m

/-- The classified items of one frame (empty for a frame with no data). -/
def msgItems (msg : StreamMessage) : List (Window × StreamItem) :=
  match msg.data with
  | none => []
  | some d => d.toList.map (fun it => (classifyStream msg.stream, it))

/-- The last item of `l` reported for window `w`. -/
def lastWindowItem (w : Window) (l : List (Window × StreamItem)) : Option StreamItem :=
  ((l.filter (fun p => p.1 = w)).getLast?).map (fun p => p.2)

/-- Modelled from the spec's words (testable property §8, claim C2): the
expected record for symbol `S` after a history `l` of classified items —
price from the most recent item of any window, volume/24h-change from the
most recent 24h item (zero if none yet), 1h/4h from the most recent item
of their window (absent if that window never reported), no record if the
symbol never appeared. -/
def specView (S : String) (l : List (Window × StreamItem)) : Option TickerData :=
  let mine := l.filter (fun p => p.2.s = S)
  mine.getLast?.map (fun lastP =>
    { symbol := S
      price := lastP.2.c
      volume := ((lastWindowItem .w24 mine).map (fun i => i.q)).getD 0
      changePercent24h := ((lastWindowItem .w24 mine).map (fun i => i.P)).getD 0
      changePercent1h := (lastWindowItem .w1 mine).map (fun i => i.P)
      changePercent4h := (lastWindowItem .w4 mine).map (fun i => i.P) })

/-! ## Snapshot cascade (`fetchInitialSnapshot`, lines 55-110) -/

/-- One item of a `/api/v3/ticker/24hr` body. -/
structure SnapItem where
  symbol : String
  lastPrice : Rat
  quoteVolume : Rat
  priceChangePercent : Rat
  count : Nat
deriving DecidableEq

/-- The record the snapshot writes for an item: a complete fresh object
with the 1h/4h properties explicitly `undefined`
(`changePercent1h: undefined, changePercent4h: undefined`). -/
def snapRecord (item : SnapItem) : TickerData :=
  { symbol := item.symbol, price := item.lastPrice, volume := item.quoteVolume,
    changePercent24h := item.priceChangePercent,
    changePercent1h := none, changePercent4h := none }

/-- The `data.forEach` body: items with `count === 0` are skipped, all
others overwrite the map entry for their symbol with `snapRecord`. -/
def applySnapshotItem (m : TickerMap) (item : SnapItem) : TickerMap :=
  if item.count = 0 then m else m.set item.symbol (snapRecord item)

/-- What one domain attempt of the cascade can yield: `fail` covers a
rejected fetch, a non-ok status and a non-array body (all throw inside
the per-domain `try` and are caught, continuing the loop); `ok items`
is a parsed array body. -/
inductive FetchOutcome
  | fail
  | ok (items : List SnapItem)
deriving DecidableEq

/-- `fetchInitialSnapshot`: try the domains in order; the first `ok`
populates the map, notifies once and returns; if every domain fails, a
final `notify()` still runs.  Returns the new map and the number of
`notify()` calls performed.  Exceptions thrown by an attempt are the
`fail` outcome — each loop iteration catches them, so the function
itself never throws. -/
def fetchInitialSnapshot (m : TickerMap) : List FetchOutcome → TickerMap × Nat
  | [] => (m, 1)
  | .fail :: rest => fetchInitialSnapshot m rest
  | .ok items :: _ => (items.foldl applySnapshotItem m, 1)

/-! ## Lazy detail fetcher (`fetchDetailedStats`, lines 113-153) -/

/-- What the body of `fetchDetailedStats` observes about its two window
fetches: `threw` is a rejection of either request (caught by the `catch`
block, applying nothing); `ok r1 r4` carries, per window, the parsed
percent change (`none` models a non-ok response, mapped to `null` by
`r.ok ? r.json() : null`). -/
inductive LazyOutcome
  | threw
  | ok (res1h res4h : Option Rat)
deriving DecidableEq

/-- State touched by the lazy fetcher: the record store plus the
`pendingFetches` set of symbols with a fetch in flight. -/
structure LazyState where
  tickerMap : TickerMap
  pendingFetches : List String

/-- The result-application part of `fetchDetailedStats` (the code between
`const item = this.tickerMap.get(symbol)` and the `if (updated)` commit):
each window result is written only when it is present and the field is
still absent; the map is updated and `notify()` called once only when at
least one field was filled.  Returns the new map and the number of
`notify()` calls. -/
def applyFetchResults (m : TickerMap) (symbol : String) (res1h res4h : Option Rat) :
    TickerMap × Nat :=
  match m symbol with
  | none => (m, 0)
  | some item0 =>
    let p1 : TickerData × Bool :=
      match res1h, item0.changePercent1h with
      | some v, none => ({ item0 with changePercent1h := some v }, true)
      | _, _ => (item0, false)
    let p2 : TickerData × Bool :=
      match res4h, p1.1.changePercent4h with
      | some v, none => ({ p1.1 with changePercent4h := some v }, true)
      | _, _ => (p1.1, p1.2)
    if p2.2 then (m.set symbol p2.1, 1) else (m, 0)

/-- The guard and marker acquisition at the top of `fetchDetailedStats`:
`if (this.pendingFetches.has(symbol)) return;` then
`this.pendingFetches.add(symbol)`. -/
def startFetch (st : LazyState) (symbol : String) : Bool × LazyState :=
  if st.pendingFetches.contains symbol then (false, st)
  else (true, { st with pendingFetches := symbol :: st.pendingFetches })

/-- The `try`/`catch`/`finally` body after the marker was acquired: on
`threw` nothing is applied (silent catch); either way the `finally`
block removes the symbol from `pendingFetches`. -/
def finishFetch (st : LazyState) (symbol : String) (outcome : LazyOutcome) :
    LazyState × Nat :=
  let r :=
    match outcome with
    | .threw => (st.tickerMap, 0)
    | .ok r1 r4 => applyFetchResults st.tickerMap symbol r1 r4
  ({ tickerMap := r.1,
     pendingFetches := st.pendingFetches.filter (fun s => s != symbol) }, r.2)

/-- One complete `fetchDetailedStats(symbol)` call with outcome
`outcome`; returns the new state and the number of `notify()` calls.
A call whose guard fires (symbol already pending) changes nothing. -/
def fetchDetailedStats (st : LazyState) (symbol : String) (outcome : LazyOutcome) :
    LazyState × Nat :=
  let s := startFetch st symbol
  if s.1 then finishFetch s.2 symbol outcome else (s.2, 0)

/-! ## Reconnect scheduler (`scheduleReconnect`, lines 256-267) -/

/-- `BASE_WS_URLS.length` — four endpoints in the source. -/
def numEndpoints : Nat := 4

/-- `this.maxReconnectDelay = 10000`. -/
def maxReconnectDelay : Rat := 10000

/-- `Math.min(1000 * Math.pow(1.5, attempt), this.maxReconnectDelay)`.
For every attempt the double-precision value the source computes agrees
with this rational: `1000·1.5^n` is exact in binary floating point while
`3^n` fits in the 53-bit mantissa, and beyond that both sides are clamped
to 10000 by the `min`. -/
def reconnectDelay (attempt : Nat) : Rat :=
  min (1000 * (1.5 : Rat) ^ attempt) maxReconnectDelay

/-- The counters `scheduleReconnect` manipulates. -/
structure ReconnState where
  reconnectAttempt : Nat
  endpointIndex : Nat
deriving DecidableEq

/-- `scheduleReconnect`: advance the endpoint index modulo the endpoint
count, compute the delay from the current attempt counter, then increment
the attempt counter.  Returns the new state and the armed delay. -/
def scheduleReconnect (st : ReconnState) : ReconnState × Rat :=
  ({ reconnectAttempt := st.reconnectAttempt + 1,
     endpointIndex := (st.endpointIndex + 1) % numEndpoints },
   reconnectDelay st.reconnectAttempt)

/-! ## Server-side batch aggregator (`src/api/snapshot.js`)

The handler's shared mutable closures (`map1h`, `map4h`, the error list)
are mutated only inside per-batch callbacks; the embedding processes the
batches in index order.  The source runs them concurrently, but every
mutation is an insertion into one of the two maps or an append to the
error list, so any interleaving yields the same maps up to last-writer
order between batches that report the same symbol, and the same error
list up to order; no claim depends on either order. -/

/-- One row of a 24h ticker body, with the fields the handler reads. -/
structure Ticker24 where
  symbol : String
  lastPrice : Rat
  quoteVolume : Rat
  priceChangePercent : Rat
  count : Nat
deriving DecidableEq

/-- One row of a windowed (`?windowSize=1h|4h`) ticker body. -/
structure WindowItem where
  symbol : String
  priceChangePercent : Rat
deriving DecidableEq

/-- The per-symbol lookup maps `map1h`/`map4h`. -/
def RatMap : Type := String → Option Rat

def RatMap.empty : RatMap := fun _ => none

def RatMap.set (m : RatMap) (k : String) (v : Rat) : RatMap :=
  fun s => if s = k then some v else m s

@[simp] theorem ratMapEmpty_apply (s : String) : RatMap.empty s = none := rfl

@[simp] theorem ratMapSet_apply (m : RatMap) (k : String) (v : Rat) (s : String) :
    m.set k v s = if s = k then some v else m s := rfl

/-- What `processBatch` observes about one windowed call: either the
response with its status (`Except.error status` when `!res.ok`) and
parsed body, or — `threw` — a rejection of the whole per-batch `try`
block (network failure aborting `Promise.all`, which rejects before any
body is read), carrying the exception message. -/
inductive BatchResult
  | threw (msg : String)
  | done (r1 : Except Nat (List WindowItem)) (r4 : Except Nat (List WindowItem))

/-- Step-1 outcome for the handler: rejection/timeout of the 24h fetch
(with the exception message), a non-ok status (with status and body text,
which the handler turns into a thrown error message), or the parsed
array body. -/
inductive TickerFetchResult
  | netFail (msg : String)
  | httpFail (status : Nat) (errText : String)
  | ok (body : List Ticker24)

/-- Accumulator for the batch phase: `map1h`, `map4h`, `partialErrors`. -/
structure BatchAcc where
  map1h : RatMap
  map4h : RatMap
  errs : List String

/-- `processBatch(batchSymbols, batchIndex)` applied to outcome `r`:
an ok windowed response folds its rows into the corresponding map; a
non-ok response appends `B{i}-1h:{status}` (resp. `-4h:`); a rejection
appends `B{i}-Err:{message}` and touches neither map. -/
def processBatch (acc : BatchAcc) (idx : Nat) (r : BatchResult) : BatchAcc :=
  match r with
  | .threw msg =>
    { acc with errs := acc.errs ++ ["B" ++ toString idx ++ "-Err:" ++ msg] }
  | .done r1 r4 =>
    let a1 :=
      match r1 with
      | .ok items =>
        { acc with
          map1h := items.foldl (fun m (i : WindowItem) => m.set i.symbol i.priceChangePercent) acc.map1h }
      | .error status =>
        { acc with errs := acc.errs ++ ["B" ++ toString idx ++ "-1h:" ++ toString status] }
    match r4 with
    | .ok items =>
      { a1 with
        map4h := items.foldl (fun m (i : WindowItem) => m.set i.symbol i.priceChangePercent) a1.map4h }
    | .error status =>
      { a1 with errs := a1.errs ++ ["B" ++ toString idx ++ "-4h:" ++ toString status] }

/-- `TOP_N = 3000`. -/
def TOP_N : Nat := 3000

/-- `BATCH_SIZE = 80`. -/
def BATCH_SIZE : Nat := 80

/-- Structural engine of `chunkArray`: the fuel starts at the list
length and strictly dominates it throughout, so the fueled recursion
computes exactly the source's `for (i = 0; i < len; i += size)` loop
(which drops at least one element per iteration for `size ≥ 1`). -/
def chunkGo (size : Nat) : Nat → List α → List (List α)
  | 0, _ => []
  | _, [] => []
  | fuel + 1, arr => arr.take size :: chunkGo size fuel (arr.drop size)

/-- The handler's `chunkArray` helper (`for (i = 0; i < len; i += size)`
pushing `arr.slice(i, i + size)`); the source never calls it with
`size = 0`, which would not terminate there and yields no chunks here. -/
def chunkArray (arr : List α) (size : Nat) : List (List α) :=
  if size = 0 then [] else chunkGo size arr.length arr

/-- Sorting `validTickers.sort((a, b) => parseFloat(b.quoteVolume) -
parseFloat(a.quoteVolume))` — descending by quote volume; the JS sort is
stable, modelled by a stable sort by the same key. -/
def sortByVolumeDesc (l : List Ticker24) : List Ticker24 :=
  l.insertionSort (fun a b => b.quoteVolume ≤ a.quoteVolume)

/-- The (sorted, filtered) base list of step 2. -/
def validSorted (body : List Ticker24) : List Ticker24 :=
  sortByVolumeDesc (body.filter (fun t => decide (t.count > 0)))

/-- The symbol batches of step 3. -/
def symbolBatches (body : List Ticker24) : List (List String) :=
  chunkArray (((validSorted body).take TOP_N).map (fun t => t.symbol)) BATCH_SIZE

/-- The batch phase: fold `processBatch` over the batch indices, with the
environment `oracle` supplying each batch's outcome. -/
def runBatches (body : List Ticker24) (oracle : Nat → BatchResult) : BatchAcc :=
  (List.range (symbolBatches body).length).foldl
    (fun acc idx => processBatch acc idx (oracle idx)) ⟨RatMap.empty, RatMap.empty, []⟩

/-- One merged row of step 4 (`null` = `none`). -/
structure MergedRecord where
  symbol : String
  price : Rat
  volume : Rat
  changePercent24h : Rat
  changePercent1h : Option Rat
  changePercent4h : Option Rat
deriving DecidableEq

/-- `result = validTickers.map(...)` — note `validTickers` was sorted in
place by step 2, so the merge runs over the sorted list. -/
def mergedRecords (body : List Ticker24) (acc : BatchAcc) : List MergedRecord :=
  (validSorted body).map (fun item =>
    { symbol := item.symbol, price := item.lastPrice, volume := item.quoteVolume,
      changePercent24h := item.priceChangePercent,
      changePercent1h := acc.map1h item.symbol,
      changePercent4h := acc.map4h item.symbol })

/-- The handler's response: an HTTP 200 with the merged array and the
cache/debug headers, or an HTTP 500 with the structured error payload
`{ error, message, logs }`.  Log entries are carried without their
`[{elapsed}ms]` wall-clock prefixes. -/
inductive HandlerResult
  | success (records : List MergedRecord) (cacheControl : String)
      (debugStatus : String) (debugErrors : Option String)
  | serverError (message : String) (logs : List String)

/-- The HTTP status the handler responds with. -/
def HandlerResult.status : HandlerResult → Nat
  | .success _ _ _ _ => 200
  | .serverError _ _ => 500

/-- The response body's data array (`none` for the error payload). -/
def HandlerResult.records? : HandlerResult → Option (List MergedRecord)
  | .success records _ _ _ => some records
  | .serverError _ _ => none

/-- The error payload's `message` field (`none` for a 200). -/
def HandlerResult.message? : HandlerResult → Option String
  | .success _ _ _ _ => none
  | .serverError msg _ => some msg

/-- The error payload's `logs` field (`none` for a 200). -/
def HandlerResult.logs? : HandlerResult → Option (List String)
  | .success _ _ _ _ => none
  | .serverError _ logs => some logs

/-- The `X-Debug-Status` header (`none` for a 500, which sets none). -/
def HandlerResult.debugStatus? : HandlerResult → Option String
  | .success _ _ ds _ => some ds
  | .serverError _ _ => none

/-- The two log lines emitted before step 1 can fail. -/
def preStep1Logs : List String :=
  ["Snapshot request received (Vercel Pro Optimized - 5min Cache)",
   "Step 1: Fetching 24hr ticker..."]

/-- The message of the error thrown on a non-ok 24h response:
`Binance 24h API failed: {status} - {errText.substring(0, 100)}`. -/
def httpFailMessage (status : Nat) (errText : String) : String :=
  "Binance 24h API failed: " ++ toString status ++ " - " ++ (errText.take 100)

/-- The whole handler.  A step-1 failure reaches the outer `catch`,
which logs `FATAL ERROR: {message}` and responds 500 with the payload;
otherwise steps 2-4 run and the handler responds 200 with the merged
array, the fixed cache directive, and the Partial/Success debug header
derived from `partialErrors`. -/
def handler (step1 : TickerFetchResult) (oracle : Nat → BatchResult) : HandlerResult :=
  match step1 with
  | .netFail msg =>
    .serverError msg (preStep1Logs ++ ["FATAL ERROR: " ++ msg])
  | .httpFail status errText =>
    .serverError (httpFailMessage status errText)
      (preStep1Logs ++ ["FATAL ERROR: " ++ httpFailMessage status errText])
  | .ok body =>
    let acc := runBatches body oracle
    .success (mergedRecords body acc)
      "s-maxage=300, stale-while-revalidate=60"
      (if acc.errs.length > 0 then "Partial" else "Success")
      (if acc.errs.length > 0 then some (String.intercalate "; " acc.errs) else none)

/-! ## Helper lemmas -/

/-- `List.find?` returns the first element satisfying the test: there is
a split of the list at the returned element with every earlier element
failing the test; a `none` result means no element passes. -/
theorem find?_first_characterization {α : Type} (p : α → Bool) (l : List α) :
    (∀ a, l.find? p = some a →
      ∃ pre post, l = pre ++ a :: post ∧ p a = true ∧ ∀ b ∈ pre, p b = false)
    ∧ (l.find? p = none → ∀ b ∈ l, p b = false) := by
  induction l with
  | nil => simp
  | cons x xs ih =>
    by_cases hx : p x = true
    · refine ⟨?_, ?_⟩
      · intro a ha
        rw [List.find?_cons_of_pos _ hx] at ha
        cases ha
        exact ⟨[], xs, rfl, hx, by simp⟩
      · intro h
        rw [List.find?_cons_of_pos _ hx] at h
        cases h
    · have hx' : p x = false := by simpa using hx
      refine ⟨?_, ?_⟩
      · intro a ha
        rw [List.find?_cons_of_neg _ hx] at ha
        obtain ⟨pre, post, heq, hpa, hpre⟩ := ih.1 a ha
        refine ⟨x :: pre, post, by rw [heq]; rfl, hpa, ?_⟩
        intro b hb
        rcases List.mem_cons.mp hb with rfl | hb
        · exact hx'
        · exact hpre b hb
      · intro h b hb
        rw [List.find?_cons_of_neg _ hx] at h
        rcases List.mem_cons.mp hb with rfl | hb
        · exact hx'
        · exact ih.2 h b hb

/-- C9: `getQuoteAsset` returns the first catalog entry, in priority
order, that is a suffix of the symbol, and `none` when no entry is a
suffix; in particular `"ETHUSDT"` resolves to `"USDT"` and `"USDCUSDT"`
resolves to `"USDT"`, not `"USDC"`. -/
theorem C9_quote_asset (symbol : String) :
    (∀ a, getQuoteAsset symbol = some a →
      ∃ pre post, KNOWN_QUOTE_ASSETS = pre ++ a :: post ∧
        strEndsWith symbol a = true ∧ ∀ b ∈ pre, strEndsWith symbol b = false)
    ∧ (getQuoteAsset symbol = none →
        ∀ b ∈ KNOWN_QUOTE_ASSETS, strEndsWith symbol b = false)
    ∧ getQuoteAsset "ETHUSDT" = some "USDT"
    ∧ getQuoteAsset "USDCUSDT" = some "USDT" := by
  refine ⟨?_, ?_, by decide, by decide⟩
  · exact (find?_first_characterization (fun asset => strEndsWith symbol asset)
      KNOWN_QUOTE_ASSETS).1
  · exact (find?_first_characterization (fun asset => strEndsWith symbol asset)
      KNOWN_QUOTE_ASSETS).2

/-- Witness for C9 at the concrete symbol `"USDCUSDT"`. -/
theorem C9_quote_asset_witness :
    ∃ pre post, KNOWN_QUOTE_ASSETS = pre ++ "USDT" :: post ∧
      strEndsWith "USDCUSDT" "USDT" = true ∧
      ∀ b ∈ pre, strEndsWith "USDCUSDT" b = false :=
  (C9_quote_asset "USDCUSDT").1 "USDT" (by decide)

/-- C6: the scheduled reconnect delay is `min(1000 · 1.5^attempt, 10000)`
milliseconds — concretely 1000, 1500, 2250, 3375, 5062.5, … clamped at
10000 — the delay is monotonically non-decreasing in the attempt count,
and each `scheduleReconnect` call advances the endpoint index by exactly
one modulo the endpoint count while incrementing the attempt counter by
one. -/
theorem C6_backoff (st : ReconnState) (n : Nat) :
    (scheduleReconnect st).2 = min (1000 * (1.5 : Rat) ^ st.reconnectAttempt) 10000
    ∧ reconnectDelay 0 = 1000
    ∧ reconnectDelay 1 = 1500
    ∧ reconnectDelay 2 = 2250
    ∧ reconnectDelay 3 = 3375
    ∧ reconnectDelay 4 = 5062.5
    ∧ reconnectDelay 5 = 7593.75
    ∧ reconnectDelay 6 = 10000
    ∧ reconnectDelay n ≤ 10000
    ∧ reconnectDelay n ≤ reconnectDelay (n + 1)
    ∧ (scheduleReconnect st).1.endpointIndex = (st.endpointIndex + 1) % numEndpoints
    ∧ (scheduleReconnect st).1.reconnectAttempt = st.reconnectAttempt + 1 := by
  refine ⟨rfl, by norm_num [reconnectDelay, maxReconnectDelay],
    by norm_num [reconnectDelay, maxReconnectDelay],
    by norm_num [reconnectDelay, maxReconnectDelay],
    by norm_num [reconnectDelay, maxReconnectDelay],
    by norm_num [reconnectDelay, maxReconnectDelay],
    by norm_num [reconnectDelay, maxReconnectDelay],
    by norm_num [reconnectDelay, maxReconnectDelay],
    min_le_right _ _, ?_, rfl, rfl⟩
  have hpow : (1.5 : Rat) ^ n ≤ (1.5 : Rat) ^ (n + 1) :=
    pow_le_pow_right₀ (by norm_num) (Nat.le_succ n)
  exact min_le_min (by linarith) le_rfl

/-- C4: the snapshot cascade performs exactly one `notify()` call on
every execution path — after the first succeeding source, or after every
source has failed — and on the all-failed path it leaves the record
store unchanged.  Exceptions raised by an attempt are absorbed by the
per-domain `catch` (outcome `fail`), so the cascade is a total function
of the outcomes and never propagates a failure to its caller. -/
theorem C4_snapshot_notify (m : TickerMap) (outcomes : List FetchOutcome) (k : Nat) :
    (fetchInitialSnapshot m outcomes).2 = 1
    ∧ fetchInitialSnapshot m (List.replicate k FetchOutcome.fail) = (m, 1) := by
  constructor
  · induction outcomes with
    | nil => rfl
    | cons o rest ih => cases o with
      | fail => exact ih
      | ok items => rfl
  · induction k with
    | zero => rfl
    | succ k ih => exact ih

/-! ## Stream-merge lemmas (towards C2 and C10) -/

/-- The per-item update of the handler equals the window-indexed update
under the classification derived from the two substring tests. -/
theorem updatedStreamRecord_eq_W (b1 b4 : Bool) (m : TickerMap) (item : StreamItem) :
    updatedStreamRecord b1 b4 m item
      = updatedRecordW (classifyOf b1 b4) ((m item.s).getD (defaultRecord item)) item := by
  cases b1 <;> cases b4 <;> rfl

/-- Map component of the event-threading fold. -/
theorem wsFold_fst (b1 b4 : Bool) (items : List StreamItem) (m : TickerMap)
    (acc : List WsEvent) :
    (items.foldl (wsStep b1 b4) (m, acc)).1 = items.foldl (mergeStreamItem b1 b4) m := by
  induction items generalizing m acc with
  | nil => rfl
  | cons item rest ih => exact ih (mergeStreamItem b1 b4 m item) _

/-- Trace component of the event-threading fold: one `commit` per item,
in payload order, appended to the accumulator. -/
theorem wsFold_snd_map_symbolOf (b1 b4 : Bool) (items : List StreamItem) (m : TickerMap)
    (acc : List WsEvent) :
    ((items.foldl (wsStep b1 b4) (m, acc)).2).map WsEvent.symbolOf
      = acc.map WsEvent.symbolOf ++ items.map (fun it => some it.s) := by
  induction items generalizing m acc with
  | nil => simp
  | cons item rest ih =>
    show ((rest.foldl (wsStep b1 b4) (_, acc ++ [_])).2).map WsEvent.symbolOf = _
    rw [ih]
    simp [WsEvent.symbolOf]

/-- The fold produces no `notify` events. -/
theorem wsFold_snd_count_notify (b1 b4 : Bool) (items : List StreamItem) (m : TickerMap)
    (acc : List WsEvent) :
    ((items.foldl (wsStep b1 b4) (m, acc)).2).count WsEvent.notify
      = acc.count WsEvent.notify := by
  induction items generalizing m acc with
  | nil => rfl
  | cons item rest ih =>
    show ((rest.foldl (wsStep b1 b4) (_, acc ++ [_])).2).count WsEvent.notify = _
    rw [ih]
    simp [List.count_append]

/-- Folding the handler-shaped merge equals folding the window-indexed
merge over the correspondingly classified items. -/
theorem foldl_mergeStreamItem_eq_processItemsW (b1 b4 : Bool) (items : List StreamItem)
    (m : TickerMap) :
    items.foldl (mergeStreamItem b1 b4) m
      = processItemsW m (items.map (fun it => (classifyOf b1 b4, it))) := by
  induction items generalizing m with
  | nil => rfl
  | cons item rest ih =>
    show rest.foldl (mergeStreamItem b1 b4) (mergeStreamItem b1 b4 m item) = _
    rw [ih]
    unfold processItemsW
    simp only [List.map_cons, List.foldl_cons]
    congr 1
    unfold stepItemW mergeStreamItem
    rw [updatedStreamRecord_eq_W]

/-- The map produced by one frame is the window-indexed fold over the
frame's classified items (C10's "merged under that single
classification"). -/
theorem onMessage_fst_eq (m : TickerMap) (msg : StreamMessage) :
    (onMessage m msg).1 = processItemsW m (msgItems msg) := by
  cases hd : msg.data with
  | none => simp [onMessage, msgItems, hd, processItemsW]
  | some d =>
    show (_, _).1 = _
    simp only [onMessage, msgItems, hd]
    rw [wsFold_fst, foldl_mergeStreamItem_eq_processItemsW]
    rfl

/-- The history of classified items of a frame sequence. -/
def historyItems (msgs : List StreamMessage) : List (Window × StreamItem) :=
  (msgs.map msgItems).flatten

/-- Processing a frame sequence is the window-indexed fold over the
flattened classified history. -/
theorem processMessages_eq (m : TickerMap) (msgs : List StreamMessage) :
    processMessages m msgs = processItemsW m (historyItems msgs) := by
  induction msgs generalizing m with
  | nil => rfl
  | cons msg rest ih =>
    show processMessages ((onMessage m msg).1) rest = _
    rw [ih, onMessage_fst_eq]
    unfold historyItems processItemsW
    simp [List.foldl_append]

/-- Pointwise form of one window-indexed step. -/
theorem stepItemW_apply (m : TickerMap) (p : Window × StreamItem) (S : String) :
    stepItemW m p S
      = if S = p.2.s then
          some (updatedRecordW p.1 ((m p.2.s).getD (defaultRecord p.2)) p.2)
        else m S := rfl

/-- Appending one classified item to a history changes `lastWindowItem`
only for that item's window. -/
theorem lastWindowItem_append_singleton (w : Window) (l : List (Window × StreamItem))
    (p : Window × StreamItem) :
    lastWindowItem w (l ++ [p]) = if p.1 = w then some p.2 else lastWindowItem w l := by
  unfold lastWindowItem
  rw [List.filter_append]
  by_cases hw : p.1 = w
  · simp [hw]
  · simp [hw]

/-- A history item for another symbol leaves the symbol's expected view
unchanged. -/
theorem specView_append_other (S : String) (l : List (Window × StreamItem))
    (p : Window × StreamItem) (hp : ¬ p.2.s = S) :
    specView S (l ++ [p]) = specView S l := by
  unfold specView
  rw [List.filter_append]
  simp [hp]

/-- Store characterization: starting from the empty store, the
window-indexed fold realizes the spec's expected view at every symbol. -/
theorem processItemsW_empty_spec (l : List (Window × StreamItem)) (S : String) :
    processItemsW TickerMap.empty l S = specView S l := by
  induction l using List.reverseRecOn with
  | nil => rfl
  | append_singleton l p ih =>
    have hstep : processItemsW TickerMap.empty (l ++ [p])
        = stepItemW (processItemsW TickerMap.empty l) p := by
      unfold processItemsW
      rw [List.foldl_append]
      rfl
    rw [hstep, stepItemW_apply]
    by_cases hs : S = p.2.s
    · rw [if_pos hs]
      subst hs
      rcases p with ⟨w, it⟩
      simp only at ih ⊢
      have hmine : (l ++ [(w, it)]).filter (fun pp => pp.2.s = it.s)
          = l.filter (fun pp => pp.2.s = it.s) ++ [(w, it)] := by
        rw [List.filter_append]
        simp
      rw [ih]
      simp only [specView, hmine, List.getLast?_concat, Option.map_some',
        lastWindowItem_append_singleton]
      rcases hml : (l.filter (fun pp => pp.2.s = it.s)).getLast? with _ | q0
      · have hle : l.filter (fun pp => pp.2.s = it.s) = [] :=
          List.getLast?_eq_none_iff.mp hml
        rw [hle]
        cases w <;>
          simp [updatedRecordW, defaultRecord, lastWindowItem]
      · rw [hml]
        simp only [Option.map_some', Option.getD_some]
        cases w <;>
          simp [updatedRecordW]
    · rw [if_neg hs, ih, specView_append_other S l p (fun h => hs h.symm)]

/-- C2: after any interleaved frame sequence, `price` is the most recent
processed value regardless of window, `volume`/`changePercent24h` come
from the most recent 24h item (zero if the record was created by a 1h/4h
frame and 24h never reported), `changePercent1h`/`changePercent4h` are
the most recent value of their window and absent if it never reported
(`specView`); and one frame with a payload emits exactly one `commit`
per item, in payload order, followed by exactly one `notify`. -/
theorem C2_stream_merge (msgs : List StreamMessage) (S : String)
    (m : TickerMap) (msg : StreamMessage) (d : StreamData)
    (hd : msg.data = some d) :
    processMessages TickerMap.empty msgs S = specView S (historyItems msgs)
    ∧ ((onMessage m msg).2).map WsEvent.symbolOf
        = d.toList.map (fun it => some it.s) ++ [none]
    ∧ ((onMessage m msg).2).getLast? = some WsEvent.notify
    ∧ ((onMessage m msg).2).count WsEvent.notify = 1 := by
  refine ⟨?_, ?_, ?_, ?_⟩
  · rw [processMessages_eq, processItemsW_empty_spec]
  · simp only [onMessage, hd]
    rw [List.map_append, wsFold_snd_map_symbolOf]
    simp [WsEvent.symbolOf]
  · simp only [onMessage, hd]
    simp
  · simp only [onMessage, hd]
    rw [List.count_append, wsFold_snd_count_notify]
    rfl

/-- Witness for C2: the spec's §8 example — a 24h frame for `BTCUSDT`
followed by a 1h frame that moves the price and sets the 1h change while
leaving volume and the 24h change untouched. -/
theorem C2_stream_merge_witness :
    (⟨"!ticker_1h@arr",
        some (StreamData.arr [⟨"BTCUSDT", 50010, 0, 0.3⟩])⟩ : StreamMessage).data
      = some (StreamData.arr [⟨"BTCUSDT", 50010, 0, 0.3⟩])
    ∧ (processMessages TickerMap.empty
        [⟨"!ticker@arr", some (StreamData.arr [⟨"BTCUSDT", 50000, 1000000000, 2.5⟩])⟩,
         ⟨"!ticker_1h@arr", some (StreamData.arr [⟨"BTCUSDT", 50010, 0, 0.3⟩])⟩]
        "BTCUSDT"
      = specView "BTCUSDT" (historyItems
        [⟨"!ticker@arr", some (StreamData.arr [⟨"BTCUSDT", 50000, 1000000000, 2.5⟩])⟩,
         ⟨"!ticker_1h@arr", some (StreamData.arr [⟨"BTCUSDT", 50010, 0, 0.3⟩])⟩])
      ∧ ((onMessage TickerMap.empty
          ⟨"!ticker_1h@arr", some (StreamData.arr [⟨"BTCUSDT", 50010, 0, 0.3⟩])⟩).2).map
            WsEvent.symbolOf
        = [⟨"BTCUSDT", 50010, 0, 0.3⟩].map (fun (it : StreamItem) => some it.s) ++ [none]
      ∧ ((onMessage TickerMap.empty
          ⟨"!ticker_1h@arr", some (StreamData.arr [⟨"BTCUSDT", 50010, 0, 0.3⟩])⟩).2).getLast?
        = some WsEvent.notify
      ∧ ((onMessage TickerMap.empty
          ⟨"!ticker_1h@arr", some (StreamData.arr [⟨"BTCUSDT", 50010, 0, 0.3⟩])⟩).2).count
            WsEvent.notify = 1) :=
  ⟨rfl,
   C2_stream_merge
     [⟨"!ticker@arr", some (StreamData.arr [⟨"BTCUSDT", 50000, 1000000000, 2.5⟩])⟩,
      ⟨"!ticker_1h@arr", some (StreamData.arr [⟨"BTCUSDT", 50010, 0, 0.3⟩])⟩]
     "BTCUSDT" TickerMap.empty
     ⟨"!ticker_1h@arr", some (StreamData.arr [⟨"BTCUSDT", 50010, 0, 0.3⟩])⟩
     (StreamData.arr [⟨"BTCUSDT", 50010, 0, 0.3⟩]) rfl⟩

/-- C10: frame classification is a function of the stream name alone —
a name containing `"1h"` is the 1-hour window even if it also contains
`"4h"`, a name containing `"4h"` but not `"1h"` is the 4-hour window,
anything else is the 24-hour window — and one frame's whole payload is
merged under that single classification. -/
theorem C10_frame_classification (name : String) (m : TickerMap) (item : StreamItem)
    (msg : StreamMessage) :
    updatedStreamRecord (strIncludes name "1h") (strIncludes name "4h") m item
      = updatedRecordW (classifyStream name) ((m item.s).getD (defaultRecord item)) item
    ∧ (strIncludes name "1h" = true → classifyStream name = Window.w1)
    ∧ (strIncludes name "1h" = false → strIncludes name "4h" = true →
        classifyStream name = Window.w4)
    ∧ (strIncludes name "1h" = false → strIncludes name "4h" = false →
        classifyStream name = Window.w24)
    ∧ classifyStream "!ticker_1h@arr" = Window.w1
    ∧ classifyStream "!ticker_4h@arr" = Window.w4
    ∧ classifyStream "!ticker@arr" = Window.w24
    ∧ classifyStream "!miniTicker_1h_4h@arr" = Window.w1
    ∧ (onMessage m msg).1 = processItemsW m (msgItems msg) := by
  refine ⟨updatedStreamRecord_eq_W _ _ m item, ?_, ?_, ?_,
    by decide, by decide, by decide, by decide, onMessage_fst_eq m msg⟩
  · intro h1
    simp [classifyStream, classifyOf, h1]
  · intro h1 h4
    simp [classifyStream, classifyOf, h1, h4]
  · intro h1 h4
    simp [classifyStream, classifyOf, h1, h4]

/-- Witness for C10 at a stream name containing both `"1h"` and `"4h"`:
the 1h test takes precedence. -/
theorem C10_frame_classification_witness :
    classifyStream "!miniTicker_1h_4h@arr" = Window.w1 :=
  (C10_frame_classification "!miniTicker_1h_4h@arr" TickerMap.empty
    ⟨"BTCUSDT", 0, 0, 0⟩ ⟨"!ticker@arr", none⟩).2.1 (by decide)

/-! ## Lazy-fetch and snapshot lemmas (towards C1, C3, C5) -/

/-- A lazy fetch for `symbol` never touches another symbol's record. -/
theorem applyFetchResults_other (m : TickerMap) (symbol : String) (r1 r4 : Option Rat)
    (S : String) (hS : ¬ S = symbol) :
    (applyFetchResults m symbol r1 r4).1 S = m S := by
  unfold applyFetchResults
  rcases hm : m symbol with _ | it0
  · rfl
  · rcases r1 with _ | v1 <;>
      rcases h1 : it0.changePercent1h with _ | w1 <;>
        rcases r4 with _ | v4 <;>
          rcases h4 : it0.changePercent4h with _ | w4 <;>
            simp [h1, h4, tickerMapSet_apply, hS]

/-- A lazy fetch never overwrites an already-present 1h value. -/
theorem applyFetchResults_keeps_1h (m : TickerMap) (symbol : String) (r1 r4 : Option Rat)
    (it0 : TickerData) (v : Rat) (hm : m symbol = some it0)
    (h1 : it0.changePercent1h = some v) :
    ((applyFetchResults m symbol r1 r4).1 symbol).map (fun it => it.changePercent1h)
      = some (some v) := by
  unfold applyFetchResults
  rw [hm]
  rcases r1 with _ | v1 <;>
    rcases r4 with _ | v4 <;>
      rcases h4 : it0.changePercent4h with _ | w4 <;>
        simp [h1, h4, tickerMapSet_apply, hm]

/-- A lazy fetch never overwrites an already-present 4h value. -/
theorem applyFetchResults_keeps_4h (m : TickerMap) (symbol : String) (r1 r4 : Option Rat)
    (it0 : TickerData) (v : Rat) (hm : m symbol = some it0)
    (h4 : it0.changePercent4h = some v) :
    ((applyFetchResults m symbol r1 r4).1 symbol).map (fun it => it.changePercent4h)
      = some (some v) := by
  unfold applyFetchResults
  rw [hm]
  rcases r1 with _ | v1 <;>
    rcases r4 with _ | v4 <;>
      rcases h1 : it0.changePercent1h with _ | w1 <;>
        simp [h1, h4, tickerMapSet_apply, hm]

/-- The stream merge keeps a present 1h field present (a 1h frame
replaces the value; 24h/4h frames leave the field untouched). -/
theorem mergeStreamItem_keeps_1h (b1 b4 : Bool) (m : TickerMap) (item : StreamItem)
    (S : String) (v : Rat)
    (h : (m S).map (fun it => it.changePercent1h) = some (some v)) :
    ∃ w, ((mergeStreamItem b1 b4 m item) S).map (fun it => it.changePercent1h)
      = some (some w) := by
  by_cases hS : S = item.s
  · subst hS
    rcases hm : m item.s with _ | it0
    · rw [hm] at h
      simp at h
    · rw [hm] at h
      have h1 : it0.changePercent1h = some v := Option.some.inj (by simpa using h)
      cases b1 <;> cases b4
      · exact ⟨v, by simp [mergeStreamItem, updatedStreamRecord, hm, h1]⟩
      · exact ⟨v, by simp [mergeStreamItem, updatedStreamRecord, hm, h1]⟩
      · exact ⟨item.P, by simp [mergeStreamItem, updatedStreamRecord, hm]⟩
      · exact ⟨item.P, by simp [mergeStreamItem, updatedStreamRecord, hm]⟩
  · exact ⟨v, by simpa [mergeStreamItem, tickerMapSet_apply, hS] using h⟩

/-- The stream merge keeps a present 4h field present. -/
theorem mergeStreamItem_keeps_4h (b1 b4 : Bool) (m : TickerMap) (item : StreamItem)
    (S : String) (v : Rat)
    (h : (m S).map (fun it => it.changePercent4h) = some (some v)) :
    ∃ w, ((mergeStreamItem b1 b4 m item) S).map (fun it => it.changePercent4h)
      = some (some w) := by
  by_cases hS : S = item.s
  · subst hS
    rcases hm : m item.s with _ | it0
    · rw [hm] at h
      simp at h
    · rw [hm] at h
      have h4 : it0.changePercent4h = some v := Option.some.inj (by simpa using h)
      cases b1 <;> cases b4
      · exact ⟨v, by simp [mergeStreamItem, updatedStreamRecord, hm, h4]⟩
      · exact ⟨item.P, by simp [mergeStreamItem, updatedStreamRecord, hm]⟩
      · exact ⟨v, by simp [mergeStreamItem, updatedStreamRecord, hm, h4]⟩
      · exact ⟨v, by simp [mergeStreamItem, updatedStreamRecord, hm, h4]⟩
  · exact ⟨v, by simpa [mergeStreamItem, tickerMapSet_apply, hS] using h⟩

/-- A snapshot item with nonzero trade count resets both optional fields
of its symbol's record to absent. -/
theorem applySnapshotItem_resets (m : TickerMap) (item : SnapItem)
    (hc : item.count ≠ 0) :
    ((applySnapshotItem m item) item.symbol).map (fun r => r.changePercent1h) = some none
    ∧ ((applySnapshotItem m item) item.symbol).map (fun r => r.changePercent4h)
        = some none := by
  unfold applySnapshotItem
  simp [hc, snapRecord, tickerMapSet_apply]

/-- Pointwise `set` preserves presence of a record. -/
theorem set_preserves_isSome (m : TickerMap) (k : String) (vv : TickerData) (ss : String)
    (h : (m ss).isSome = true) : ((m.set k vv) ss).isSome = true := by
  by_cases hk : ss = k <;> simp [tickerMapSet_apply, hk, h]

/-- Folding a presence-preserving step preserves presence. -/
theorem foldl_isSome_preserved {β : Type} (f : TickerMap → β → TickerMap)
    (hf : ∀ mm b ss, (mm ss).isSome = true → (f mm b ss).isSome = true)
    (l : List β) : ∀ (mm : TickerMap) (ss : String),
      (mm ss).isSome = true → ((l.foldl f mm) ss).isSome = true := by
  induction l with
  | nil => exact fun mm ss h => h
  | cons b rest ih => exact fun mm ss h => ih (f mm b) ss (hf mm b ss h)

/-- One frame never deletes a record. -/
theorem onMessage_preserves_isSome (m : TickerMap) (msg : StreamMessage) (S : String)
    (h : (m S).isSome = true) : (((onMessage m msg).1) S).isSome = true := by
  cases hd : msg.data with
  | none => simpa [onMessage, hd] using h
  | some d =>
    simp only [onMessage, hd]
    rw [wsFold_fst]
    exact foldl_isSome_preserved _
      (fun mm b ss hh => set_preserves_isSome mm b.s _ ss hh) _ m S h

/-- The snapshot cascade never deletes a record. -/
theorem fetchInitialSnapshot_preserves_isSome (m : TickerMap)
    (outs : List FetchOutcome) (S : String) (h : (m S).isSome = true) :
    (((fetchInitialSnapshot m outs).1) S).isSome = true := by
  induction outs with
  | nil => exact h
  | cons o rest ih =>
    cases o with
    | fail => exact ih
    | ok items =>
      show ((items.foldl applySnapshotItem m) S).isSome = true
      refine foldl_isSome_preserved _ ?_ items m S h
      intro mm b ss hh
      unfold applySnapshotItem
      by_cases hc : b.count = 0
      · simpa [hc] using hh
      · simp only [hc, if_false]
        exact set_preserves_isSome mm b.symbol _ ss hh

/-- The lazy fetch never deletes a record. -/
theorem fetchDetailedStats_preserves_isSome (st : LazyState) (symbol S : String)
    (outcome : LazyOutcome) (h : (st.tickerMap S).isSome = true) :
    ((fetchDetailedStats st symbol outcome).1.tickerMap S).isSome = true := by
  unfold fetchDetailedStats startFetch finishFetch
  by_cases hp : symbol ∈ st.pendingFetches
  · rcases outcome with _ | ⟨r1, r4⟩ <;> simpa [hp] using h
  · rcases outcome with _ | ⟨r1, r4⟩
    · simpa [hp] using h
    · by_cases hS : S = symbol
      · subst hS
        rcases hm : st.tickerMap S with _ | it0
        · simp [hm] at h
        · rcases r1 with _ | v1 <;>
            rcases r4 with _ | v4 <;>
              rcases h1 : it0.changePercent1h with _ | w1 <;>
                rcases h4 : it0.changePercent4h with _ | w4 <;>
                  simp [applyFetchResults, hp, hm, h1, h4, tickerMapSet_apply]
      · have hother := applyFetchResults_other st.tickerMap symbol r1 r4 S hS
        simp [hp, hother, h]

/-- Counterexample to C1: a record whose `changePercent1h` was set (e.g.
by a 1h stream frame) loses the field when a snapshot-cascade step later
repopulates the symbol — `fetchInitialSnapshot` writes a complete fresh
record with both optional fields absent instead of refreshing only
price/volume/24h-change. -/
theorem C1_counterexample :
    (((TickerMap.empty.set "BTCUSDT"
        ⟨"BTCUSDT", 50010, 0, 0, some 1, none⟩) "BTCUSDT").map
          (fun r => r.changePercent1h)) = some (some 1)
    ∧ (((fetchInitialSnapshot
          (TickerMap.empty.set "BTCUSDT" ⟨"BTCUSDT", 50010, 0, 0, some 1, none⟩)
          [FetchOutcome.ok [⟨"BTCUSDT", 50000, 1000, 2, 5⟩]]).1 "BTCUSDT").map
            (fun r => r.changePercent1h)) = some none := by
  constructor <;> rfl

/-- C1 as amended: the stream merge and the lazy detail fetch never
regress a present 1h/4h field to absent (the stream replaces the value,
the lazy fetch keeps it), but a snapshot item with nonzero trade count
overwrites the symbol's whole record, resetting both optional fields to
absent even when they were set. -/
theorem C1_amended_field_regression (b1 b4 : Bool) (m : TickerMap)
    (item : StreamItem) (snap : SnapItem) (symbol S : String)
    (r1 r4 : Option Rat) (v : Rat) :
    ((m S).map (fun it => it.changePercent1h) = some (some v) →
      ∃ w, ((mergeStreamItem b1 b4 m item) S).map (fun it => it.changePercent1h)
        = some (some w))
    ∧ ((m S).map (fun it => it.changePercent4h) = some (some v) →
      ∃ w, ((mergeStreamItem b1 b4 m item) S).map (fun it => it.changePercent4h)
        = some (some w))
    ∧ ((m S).map (fun it => it.changePercent1h) = some (some v) →
      (((applyFetchResults m symbol r1 r4).1) S).map (fun it => it.changePercent1h)
        = some (some v))
    ∧ ((m S).map (fun it => it.changePercent4h) = some (some v) →
      (((applyFetchResults m symbol r1 r4).1) S).map (fun it => it.changePercent4h)
        = some (some v))
    ∧ (snap.count ≠ 0 →
      ((applySnapshotItem m snap) snap.symbol).map (fun r => r.changePercent1h)
          = some none
        ∧ ((applySnapshotItem m snap) snap.symbol).map (fun r => r.changePercent4h)
          = some none) := by
  refine ⟨mergeStreamItem_keeps_1h b1 b4 m item S v,
    mergeStreamItem_keeps_4h b1 b4 m item S v, ?_, ?_,
    applySnapshotItem_resets m snap⟩
  · intro h
    by_cases hS : S = symbol
    · subst hS
      rcases hm : m S with _ | it0
      · rw [hm] at h
        simp at h
      · rw [hm] at h
        exact applyFetchResults_keeps_1h m S r1 r4 it0 v hm
          (Option.some.inj (by simpa using h))
    · rw [applyFetchResults_other m symbol r1 r4 S hS]
      exact h
  · intro h
    by_cases hS : S = symbol
    · subst hS
      rcases hm : m S with _ | it0
      · rw [hm] at h
        simp at h
      · rw [hm] at h
        exact applyFetchResults_keeps_4h m S r1 r4 it0 v hm
          (Option.some.inj (by simpa using h))
    · rw [applyFetchResults_other m symbol r1 r4 S hS]
      exact h

/-- Witness for the amended C1 at a concrete store holding
`BTCUSDT ↦ { …, changePercent1h = some 1, changePercent4h = some 2 }`. -/
theorem C1_amended_field_regression_witness :
    (∃ w, ((mergeStreamItem false false
        (TickerMap.empty.set "BTCUSDT" ⟨"BTCUSDT", 50010, 7, 3, some 1, some 2⟩)
        ⟨"BTCUSDT", 50020, 9, 4⟩) "BTCUSDT").map (fun it => it.changePercent1h)
      = some (some w))
    ∧ (((applyFetchResults
        (TickerMap.empty.set "BTCUSDT" ⟨"BTCUSDT", 50010, 7, 3, some 1, some 2⟩)
        "BTCUSDT" (some 5) (some 6)).1 "BTCUSDT").map (fun it => it.changePercent1h)
      = some (some 1))
    ∧ ((applySnapshotItem
        (TickerMap.empty.set "BTCUSDT" ⟨"BTCUSDT", 50010, 7, 3, some 1, some 2⟩)
        ⟨"BTCUSDT", 50000, 1000, 2, 5⟩) "BTCUSDT").map (fun r => r.changePercent1h)
      = some none :=
  ⟨(C1_amended_field_regression false false
      (TickerMap.empty.set "BTCUSDT" ⟨"BTCUSDT", 50010, 7, 3, some 1, some 2⟩)
      ⟨"BTCUSDT", 50020, 9, 4⟩ ⟨"BTCUSDT", 50000, 1000, 2, 5⟩ "BTCUSDT" "BTCUSDT"
      (some 5) (some 6) 1).1 (by decide),
   (C1_amended_field_regression false false
      (TickerMap.empty.set "BTCUSDT" ⟨"BTCUSDT", 50010, 7, 3, some 1, some 2⟩)
      ⟨"BTCUSDT", 50020, 9, 4⟩ ⟨"BTCUSDT", 50000, 1000, 2, 5⟩ "BTCUSDT" "BTCUSDT"
      (some 5) (some 6) 1).2.2.1 (by decide),
   ((C1_amended_field_regression false false
      (TickerMap.empty.set "BTCUSDT" ⟨"BTCUSDT", 50010, 7, 3, some 1, some 2⟩)
      ⟨"BTCUSDT", 50020, 9, 4⟩ ⟨"BTCUSDT", 50000, 1000, 2, 5⟩ "BTCUSDT" "BTCUSDT"
      (some 5) (some 6) 1).2.2.2.2 (by decide)).1⟩

/-- Counterexample to C3: the lazy detail fetch observing a symbol with
no record does not create one — `fetchDetailedStats` applies its results
only when `tickerMap.get(symbol)` already exists, so the store stays
empty. -/
theorem C3_counterexample :
    ((⟨TickerMap.empty, []⟩ : LazyState).tickerMap "BTCUSDT" = none)
    ∧ (fetchDetailedStats ⟨TickerMap.empty, []⟩ "BTCUSDT"
        (LazyOutcome.ok (some 1) (some 2))).1.tickerMap "BTCUSDT" = none := by
  constructor <;> rfl

/-- C3 as amended: a stream frame item always creates the missing record
for its symbol; a snapshot item creates (overwrites) the record when its
trade count is nonzero and is skipped entirely when the count is zero;
the lazy detail fetch never creates a record (its results are dropped
for an unknown symbol); and no operation — frame, cascade, or lazy
fetch — ever deletes an entry from the store. -/
theorem C3_amended_lifecycle (b1 b4 : Bool) (m : TickerMap) (item : StreamItem)
    (snap : SnapItem) (st : LazyState) (symbol S : String) (outcome : LazyOutcome)
    (msg : StreamMessage) (outs : List FetchOutcome) :
    ((mergeStreamItem b1 b4 m item) item.s).isSome = true
    ∧ (snap.count ≠ 0 → ((applySnapshotItem m snap) snap.symbol).isSome = true)
    ∧ (snap.count = 0 → applySnapshotItem m snap = m)
    ∧ (st.tickerMap symbol = none →
        (fetchDetailedStats st symbol outcome).1.tickerMap symbol = none)
    ∧ ((m S).isSome = true → (((onMessage m msg).1) S).isSome = true)
    ∧ ((m S).isSome = true → (((fetchInitialSnapshot m outs).1) S).isSome = true)
    ∧ ((st.tickerMap S).isSome = true →
        ((fetchDetailedStats st symbol outcome).1.tickerMap S).isSome = true) := by
  refine ⟨?_, ?_, ?_, ?_, onMessage_preserves_isSome m msg S,
    fetchInitialSnapshot_preserves_isSome m outs S,
    fetchDetailedStats_preserves_isSome st symbol S outcome⟩
  · simp [mergeStreamItem, tickerMapSet_apply]
  · intro hc
    simp [applySnapshotItem, hc, tickerMapSet_apply]
  · intro hc
    simp [applySnapshotItem, hc]
  · intro hnone
    unfold fetchDetailedStats startFetch finishFetch
    by_cases hp : symbol ∈ st.pendingFetches
    · rcases outcome with _ | ⟨r1, r4⟩ <;> simpa [hp] using hnone
    · rcases outcome with _ | ⟨r1, r4⟩
      · simpa [hp] using hnone
      · simp [hp, applyFetchResults, hnone]

/-- Witness for the amended C3 at concrete inputs. -/
theorem C3_amended_lifecycle_witness :
    ((mergeStreamItem false false TickerMap.empty ⟨"ETHUSDT", 3000, 5, 1⟩) "ETHUSDT").isSome
      = true
    ∧ ((applySnapshotItem TickerMap.empty ⟨"ETHUSDT", 3000, 5, 1, 9⟩) "ETHUSDT").isSome
      = true
    ∧ applySnapshotItem
        (TickerMap.empty.set "ETHUSDT" ⟨"ETHUSDT", 3000, 5, 1, none, none⟩)
        ⟨"ETHUSDT", 3000, 5, 1, 0⟩
      = TickerMap.empty.set "ETHUSDT" ⟨"ETHUSDT", 3000, 5, 1, none, none⟩
    ∧ (fetchDetailedStats ⟨TickerMap.empty, []⟩ "ETHUSDT" LazyOutcome.threw).1.tickerMap
        "ETHUSDT" = none
    ∧ (((onMessage (TickerMap.empty.set "ETHUSDT" ⟨"ETHUSDT", 3000, 5, 1, none, none⟩)
          ⟨"!ticker@arr", none⟩).1) "ETHUSDT").isSome = true
    ∧ (((fetchInitialSnapshot
          (TickerMap.empty.set "ETHUSDT" ⟨"ETHUSDT", 3000, 5, 1, none, none⟩)
          [FetchOutcome.fail]).1) "ETHUSDT").isSome = true
    ∧ ((fetchDetailedStats
          ⟨TickerMap.empty.set "ETHUSDT" ⟨"ETHUSDT", 3000, 5, 1, none, none⟩, []⟩
          "ETHUSDT" LazyOutcome.threw).1.tickerMap "ETHUSDT").isSome = true := by
  have h := C3_amended_lifecycle false false TickerMap.empty ⟨"ETHUSDT", 3000, 5, 1⟩
    ⟨"ETHUSDT", 3000, 5, 1, 9⟩ ⟨TickerMap.empty, []⟩ "ETHUSDT" "ETHUSDT"
    LazyOutcome.threw ⟨"!ticker@arr", none⟩ [FetchOutcome.fail]
  have h2 := C3_amended_lifecycle false false
    (TickerMap.empty.set "ETHUSDT" ⟨"ETHUSDT", 3000, 5, 1, none, none⟩)
    ⟨"ETHUSDT", 3000, 5, 1⟩ ⟨"ETHUSDT", 3000, 5, 1, 0⟩
    ⟨TickerMap.empty.set "ETHUSDT" ⟨"ETHUSDT", 3000, 5, 1, none, none⟩, []⟩
    "ETHUSDT" "ETHUSDT" LazyOutcome.threw ⟨"!ticker@arr", none⟩ [FetchOutcome.fail]
  exact ⟨h.1, h.2.1 (by decide), h2.2.2.1 (by decide), h.2.2.2.1 (by decide),
    h2.2.2.2.2.1 (by decide), h2.2.2.2.2.2.1 (by decide),
    h2.2.2.2.2.2.2 (by decide)⟩

/-- C5: a lazy fetch call while one is in flight for the same symbol is
a no-op (no state change, no notify); a completed fetch writes 1h/4h
only into still-absent fields — an already-present value survives with
the same value — and touches no other symbol; and the in-flight marker
is released on every completion path, including the exception path, so
a later call can fetch again. -/
theorem C5_lazy_fetch (st : LazyState) (symbol S : String) (outcome : LazyOutcome)
    (m : TickerMap) (r1 r4 : Option Rat) (v : Rat) :
    (st.pendingFetches.contains symbol = true →
        fetchDetailedStats st symbol outcome = (st, 0))
    ∧ ((m symbol).map (fun it => it.changePercent1h) = some (some v) →
        (((applyFetchResults m symbol r1 r4).1) symbol).map (fun it => it.changePercent1h)
          = some (some v))
    ∧ ((m symbol).map (fun it => it.changePercent4h) = some (some v) →
        (((applyFetchResults m symbol r1 r4).1) symbol).map (fun it => it.changePercent4h)
          = some (some v))
    ∧ (¬ S = symbol → (applyFetchResults m symbol r1 r4).1 S = m S)
    ∧ (st.pendingFetches.contains symbol = false →
        ((fetchDetailedStats st symbol outcome).1).pendingFetches.contains symbol
          = false) := by
  refine ⟨?_, ?_, ?_, applyFetchResults_other m symbol r1 r4 S, ?_⟩
  · intro hp
    have hpm : symbol ∈ st.pendingFetches := by simpa using hp
    simp [fetchDetailedStats, startFetch, hpm]
  · intro h
    rcases hm : m symbol with _ | it0
    · rw [hm] at h
      simp at h
    · rw [hm] at h
      exact applyFetchResults_keeps_1h m symbol r1 r4 it0 v hm
        (Option.some.inj (by simpa using h))
  · intro h
    rcases hm : m symbol with _ | it0
    · rw [hm] at h
      simp at h
    · rw [hm] at h
      exact applyFetchResults_keeps_4h m symbol r1 r4 it0 v hm
        (Option.some.inj (by simpa using h))
  · intro hp
    have hpm : symbol ∉ st.pendingFetches := by simpa using hp
    unfold fetchDetailedStats startFetch finishFetch
    rcases outcome with _ | ⟨rr1, rr4⟩ <;> simp [hpm]

/-- Witness for C5: one instantiation with the marker held (the call is
a no-op) and one with it free (fields survive, marker released). -/
theorem C5_lazy_fetch_witness :
    fetchDetailedStats
        ⟨TickerMap.empty.set "SOLUSDT" ⟨"SOLUSDT", 150, 7, 3, some 1, some 2⟩, ["SOLUSDT"]⟩
        "SOLUSDT" LazyOutcome.threw
      = (⟨TickerMap.empty.set "SOLUSDT" ⟨"SOLUSDT", 150, 7, 3, some 1, some 2⟩,
          ["SOLUSDT"]⟩, 0)
    ∧ (((applyFetchResults
          (TickerMap.empty.set "SOLUSDT" ⟨"SOLUSDT", 150, 7, 3, some 1, some 2⟩)
          "SOLUSDT" (some 5) (some 6)).1) "SOLUSDT").map (fun it => it.changePercent1h)
        = some (some 1)
    ∧ (applyFetchResults
          (TickerMap.empty.set "SOLUSDT" ⟨"SOLUSDT", 150, 7, 3, some 1, some 2⟩)
          "SOLUSDT" (some 5) (some 6)).1 "BTCUSDT"
        = (TickerMap.empty.set "SOLUSDT" ⟨"SOLUSDT", 150, 7, 3, some 1, some 2⟩) "BTCUSDT"
    ∧ ((fetchDetailedStats
          ⟨TickerMap.empty.set "SOLUSDT" ⟨"SOLUSDT", 150, 7, 3, some 1, some 2⟩, []⟩
          "SOLUSDT" LazyOutcome.threw).1).pendingFetches.contains "SOLUSDT" = false := by
  have h1 := C5_lazy_fetch
    ⟨TickerMap.empty.set "SOLUSDT" ⟨"SOLUSDT", 150, 7, 3, some 1, some 2⟩, ["SOLUSDT"]⟩
    "SOLUSDT" "BTCUSDT" LazyOutcome.threw
    (TickerMap.empty.set "SOLUSDT" ⟨"SOLUSDT", 150, 7, 3, some 1, some 2⟩)
    (some 5) (some 6) 1
  have h2 := C5_lazy_fetch
    ⟨TickerMap.empty.set "SOLUSDT" ⟨"SOLUSDT", 150, 7, 3, some 1, some 2⟩, []⟩
    "SOLUSDT" "BTCUSDT" LazyOutcome.threw
    (TickerMap.empty.set "SOLUSDT" ⟨"SOLUSDT", 150, 7, 3, some 1, some 2⟩)
    (some 5) (some 6) 1
  exact ⟨h1.1 (by decide), h1.2.1 (by decide), h1.2.2.2.1 (by decide),
    h2.2.2.2.2 (by decide)⟩

/-! ## Batch-aggregator lemmas (towards C7 and C8) -/

/-- The 1h payload a batch contributed to `map1h` (empty for a thrown
batch or a non-ok 1h response). -/
def okItems1h : BatchResult → List WindowItem
  | .done (.ok items) _ => items
  | _ => []

/-- The 4h payload a batch contributed to `map4h`. -/
def okItems4h : BatchResult → List WindowItem
  | .done _ (.ok items) => items
  | _ => []

/-- The error entries one batch appends to `partialErrors`. -/
def errEntries (idx : Nat) : BatchResult → List String
  | .threw msg => ["B" ++ toString idx ++ "-Err:" ++ msg]
  | .done r1 r4 =>
    (match r1 with
     | .ok _ => []
     | .error status => ["B" ++ toString idx ++ "-1h:" ++ toString status])
    ++ (match r4 with
        | .ok _ => []
        | .error status => ["B" ++ toString idx ++ "-4h:" ++ toString status])

theorem processBatch_errs (acc : BatchAcc) (idx : Nat) (r : BatchResult) :
    (processBatch acc idx r).errs = acc.errs ++ errEntries idx r := by
  rcases r with msg | ⟨r1 | s1, r4 | s4⟩ <;> simp [processBatch, errEntries]

theorem processBatch_map1h (acc : BatchAcc) (idx : Nat) (r : BatchResult) :
    (processBatch acc idx r).map1h
      = (okItems1h r).foldl (fun m (i : WindowItem) => m.set i.symbol i.priceChangePercent)
          acc.map1h := by
  rcases r with msg | ⟨r1 | s1, r4 | s4⟩ <;> simp [processBatch, okItems1h]

theorem processBatch_map4h (acc : BatchAcc) (idx : Nat) (r : BatchResult) :
    (processBatch acc idx r).map4h
      = (okItems4h r).foldl (fun m (i : WindowItem) => m.set i.symbol i.priceChangePercent)
          acc.map4h := by
  rcases r with msg | ⟨r1 | s1, r4 | s4⟩ <;> simp [processBatch, okItems4h]

/-- The batch phase over the first `n` batch indices. -/
def runBatchesN (oracle : Nat → BatchResult) (n : Nat) : BatchAcc :=
  (List.range n).foldl (fun acc idx => processBatch acc idx (oracle idx))
    ⟨RatMap.empty, RatMap.empty, []⟩

theorem runBatches_eq (body : List Ticker24) (oracle : Nat → BatchResult) :
    runBatches body oracle = runBatchesN oracle (symbolBatches body).length := rfl

theorem runBatchesN_succ (oracle : Nat → BatchResult) (n : Nat) :
    runBatchesN oracle (n + 1) = processBatch (runBatchesN oracle n) n (oracle n) := by
  unfold runBatchesN
  rw [List.range_succ, List.foldl_append]
  rfl

/-- The error list after `n` batches is exactly the concatenation of the
per-batch error entries: a failing call is recorded and nothing else. -/
theorem runBatchesN_errs (oracle : Nat → BatchResult) (n : Nat) :
    (runBatchesN oracle n).errs
      = ((List.range n).map (fun j => errEntries j (oracle j))).flatten := by
  induction n with
  | zero => rfl
  | succ n ih =>
    rw [runBatchesN_succ, processBatch_errs, ih, List.range_succ]
    simp

/-- The most recent (`last writer wins`) value a window payload list
reports for a symbol. -/
def lastReported (items : List WindowItem) (s : String) : Option Rat :=
  ((items.filter (fun i => i.symbol = s)).getLast?).map (fun i => i.priceChangePercent)

/-- `Option.map` distributes over `Option.or`. -/
theorem optionMap_or {α β : Type} (f : α → β) (x y : Option α) :
    (x.or y).map f = (x.map f).or (y.map f) := by
  cases x <;> rfl

theorem lastReported_append (a b : List WindowItem) (s : String) :
    lastReported (a ++ b) s = (lastReported b s).or (lastReported a s) := by
  unfold lastReported
  rw [List.filter_append, List.getLast?_append, optionMap_or]

/-- Folding window items into a lookup map realizes last-writer-wins per
symbol, leaving other symbols at their previous value. -/
theorem foldl_ratMapSet (items : List WindowItem) (m : RatMap) (s : String) :
    (items.foldl (fun mm (i : WindowItem) => mm.set i.symbol i.priceChangePercent) m) s
      = (lastReported items s).or (m s) := by
  induction items using List.reverseRecOn generalizing m with
  | nil => rfl
  | append_singleton items i ihh =>
    rw [List.foldl_append]
    show (((items.foldl _ m).set i.symbol i.priceChangePercent)) s = _
    rw [lastReported_append]
    by_cases hs : i.symbol = s
    · subst hs
      simp [ratMapSet_apply, lastReported]
    · have hs' : ¬ s = i.symbol := fun h => hs h.symm
      simp only [ratMapSet_apply, hs', if_false, ihh]
      have : lastReported [i] s = none := by
        simp [lastReported, hs]
      rw [this]
      rfl

/-- All 1h items accumulated over the first `n` batches. -/
def okItems1hUpTo (oracle : Nat → BatchResult) (n : Nat) : List WindowItem :=
  ((List.range n).map (fun j => okItems1h (oracle j))).flatten

/-- All 4h items accumulated over the first `n` batches. -/
def okItems4hUpTo (oracle : Nat → BatchResult) (n : Nat) : List WindowItem :=
  ((List.range n).map (fun j => okItems4h (oracle j))).flatten

/-- `map1h` after the batch phase depends only on the ok 1h payloads —
a batch that threw or returned a non-ok status contributes nothing and
does not disturb the entries of its siblings. -/
theorem runBatchesN_map1h (oracle : Nat → BatchResult) (n : Nat) (s : String) :
    (runBatchesN oracle n).map1h s = lastReported (okItems1hUpTo oracle n) s := by
  induction n with
  | zero => rfl
  | succ n ih =>
    rw [runBatchesN_succ, processBatch_map1h, foldl_ratMapSet, ih]
    have : okItems1hUpTo oracle (n + 1)
        = okItems1hUpTo oracle n ++ okItems1h (oracle n) := by
      unfold okItems1hUpTo
      rw [List.range_succ]
      simp
    rw [this, lastReported_append]

theorem runBatchesN_map4h (oracle : Nat → BatchResult) (n : Nat) (s : String) :
    (runBatchesN oracle n).map4h s = lastReported (okItems4hUpTo oracle n) s := by
  induction n with
  | zero => rfl
  | succ n ih =>
    rw [runBatchesN_succ, processBatch_map4h, foldl_ratMapSet, ih]
    have : okItems4hUpTo oracle (n + 1)
        = okItems4hUpTo oracle n ++ okItems4h (oracle n) := by
      unfold okItems4hUpTo
      rw [List.range_succ]
      simp
    rw [this, lastReported_append]

/-! ## `chunkArray` lemmas (towards C8) -/

theorem chunkGo_nil {α : Type} (size fuel : Nat) :
    chunkGo size fuel ([] : List α) = [] := by
  cases fuel <;> rfl

/-- The fuel does not matter as long as it dominates the list length. -/
theorem chunkGo_fuel_irrel {α : Type} (size : Nat) (hs : size ≠ 0) :
    ∀ (f1 f2 : Nat) (arr : List α), arr.length ≤ f1 → arr.length ≤ f2 →
      chunkGo size f1 arr = chunkGo size f2 arr := by
  intro f1
  induction f1 with
  | zero =>
    intro f2 arr h1 h2
    have : arr = [] := List.eq_nil_of_length_eq_zero (Nat.le_zero.mp h1)
    subst this
    rw [chunkGo_nil, chunkGo_nil]
  | succ f1 ih =>
    intro f2 arr h1 h2
    rcases arr with _ | ⟨a, rest⟩
    · rw [chunkGo_nil, chunkGo_nil]
    · rcases f2 with _ | f2
      · simp at h2
      · show (a :: rest).take size :: chunkGo size f1 ((a :: rest).drop size)
            = (a :: rest).take size :: chunkGo size f2 ((a :: rest).drop size)
        congr 1
        apply ih
        · simp only [List.length_drop, List.length_cons] at h1 ⊢
          omega
        · simp only [List.length_drop, List.length_cons] at h2 ⊢
          omega

theorem chunkArray_nil {α : Type} (size : Nat) : chunkArray ([] : List α) size = [] := by
  unfold chunkArray
  by_cases h : size = 0 <;> simp [h, chunkGo_nil]

theorem chunkArray_cons {α : Type} (arr : List α) (size : Nat) (h1 : arr ≠ [])
    (h2 : size ≠ 0) :
    chunkArray arr size = arr.take size :: chunkArray (arr.drop size) size := by
  rcases arr with _ | ⟨a, rest⟩
  · exact absurd rfl h1
  · unfold chunkArray
    simp only [h2, if_false]
    show (a :: rest).take size :: chunkGo size rest.length ((a :: rest).drop size) = _
    congr 1
    exact chunkGo_fuel_irrel size h2 rest.length ((a :: rest).drop size).length
      ((a :: rest).drop size)
      (by simp only [List.length_drop, List.length_cons]; omega) le_rfl

theorem chunkArray_eq_nil_iff {α : Type} (arr : List α) (size : Nat) (hs : size ≠ 0) :
    chunkArray arr size = [] ↔ arr = [] := by
  constructor
  · intro h
    by_contra harr
    rw [chunkArray_cons arr size harr hs] at h
    cases h
  · intro h
    subst h
    exact chunkArray_nil size

/-- Ceiling-division arithmetic for the chunk count. -/
theorem chunk_count_arith (L size : Nat) (hs : size ≠ 0) (hL : 1 ≤ L) :
    1 + (L - size + size - 1) / size = (L + size - 1) / size := by
  have hspos : 0 < size := Nat.pos_of_ne_zero hs
  by_cases hcase : L ≤ size
  · have h1 : L - size = 0 := by omega
    rw [h1]
    have h2 : (0 + size - 1) / size = 0 := Nat.div_eq_of_lt (by omega)
    have h3 : (L + size - 1) / size = 1 :=
      Nat.div_eq_of_lt_le (by omega) (by omega)
    omega
  · have h1 : L - size + size - 1 = L - 1 := by omega
    have h2 : L + size - 1 = L - 1 + size := by omega
    rw [h1, h2, Nat.add_div_right _ hspos]
    omega

/-- The number of chunks is the ceiling of `length / size`. -/
theorem chunkArray_length {α : Type} (size : Nat) (hs : size ≠ 0) :
    ∀ (n : Nat) (arr : List α), arr.length ≤ n →
      (chunkArray arr size).length = (arr.length + size - 1) / size := by
  intro n
  induction n with
  | zero =>
    intro arr h
    have : arr = [] := List.eq_nil_of_length_eq_zero (Nat.le_zero.mp h)
    subst this
    rw [chunkArray_nil]
    have h0 : (size - 1) / size = 0 := Nat.div_eq_of_lt (by omega)
    simp [h0]
  | succ n ih =>
    intro arr h
    rcases harr : arr with _ | ⟨a, rest⟩
    · subst harr
      rw [chunkArray_nil]
      have h0 : (size - 1) / size = 0 := Nat.div_eq_of_lt (by omega)
      simp [h0]
    · subst harr
      rw [chunkArray_cons _ size (by simp) hs]
      have hlen : (a :: rest).length = rest.length + 1 := rfl
      have hdrop : ((a :: rest).drop size).length = rest.length + 1 - size := by
        simp [List.length_drop]
      have hrec := ih ((a :: rest).drop size)
        (by simp only [List.length_drop, List.length_cons] at h ⊢; omega)
      simp only [List.length_cons, hrec, hdrop]
      have harith := chunk_count_arith (rest.length + 1) size hs (by omega)
      omega

/-- Every chunk is nonempty and no longer than `size`. -/
theorem chunkArray_mem_bounds {α : Type} (size : Nat) (hs : size ≠ 0) :
    ∀ (n : Nat) (arr : List α), arr.length ≤ n → ∀ b ∈ chunkArray arr size,
      b.length ≤ size ∧ b ≠ [] := by
  intro n
  induction n with
  | zero =>
    intro arr h b hb
    have : arr = [] := List.eq_nil_of_length_eq_zero (Nat.le_zero.mp h)
    subst this
    rw [chunkArray_nil] at hb
    cases hb
  | succ n ih =>
    intro arr h b hb
    rcases harr : arr with _ | ⟨a, rest⟩
    · subst harr
      rw [chunkArray_nil] at hb
      cases hb
    · subst harr
      rw [chunkArray_cons _ size (by simp) hs] at hb
      rcases List.mem_cons.mp hb with rfl | hb
      · refine ⟨by simp [List.length_take], ?_⟩
        have : 0 < size := Nat.pos_of_ne_zero hs
        rcases size with _ | size
        · omega
        · simp [List.take_cons]
      · exact ih ((a :: rest).drop size)
          (by simp only [List.length_drop, List.length_cons] at h ⊢; omega) b hb

/-- Every chunk except possibly the last has length exactly `size`. -/
theorem chunkArray_dropLast_length {α : Type} (size : Nat) (hs : size ≠ 0) :
    ∀ (n : Nat) (arr : List α), arr.length ≤ n →
      ∀ b ∈ (chunkArray arr size).dropLast, b.length = size := by
  intro n
  induction n with
  | zero =>
    intro arr h b hb
    have : arr = [] := List.eq_nil_of_length_eq_zero (Nat.le_zero.mp h)
    subst this
    rw [chunkArray_nil] at hb
    cases hb
  | succ n ih =>
    intro arr h b hb
    rcases harr : arr with _ | ⟨a, rest⟩
    · subst harr
      rw [chunkArray_nil] at hb
      cases hb
    · subst harr
      rw [chunkArray_cons _ size (by simp) hs] at hb
      by_cases hrest : chunkArray ((a :: rest).drop size) size = []
      · rw [hrest] at hb
        cases hb
      · rw [List.dropLast_cons_of_ne_nil hrest] at hb
        rcases List.mem_cons.mp hb with rfl | hb
        · have hdropne : (a :: rest).drop size ≠ [] := by
            intro hd
            exact hrest (hd ▸ chunkArray_nil size)
          have hlong : size < (a :: rest).length := by
            by_contra hle
            push_neg at hle
            exact hdropne (List.drop_eq_nil_of_le hle)
          simp only [List.length_take, List.length_cons] at hlong ⊢
          omega
        · exact ih ((a :: rest).drop size)
            (by simp only [List.length_drop, List.length_cons] at h ⊢; omega) b hb

/-- C7: a failure of the initial 24h fetch (rejection/timeout or non-ok
status) yields a 500 response with a structured error payload — message
plus diagnostic logs — and no data; when the 24h fetch succeeds the
handler responds 200 with the full merged array no matter how the batch
calls fare, records each failing call in the error list, reports
`Partial` in the debug status header exactly when some call failed, and
a failing batch contributes nothing to the lookup maps without
disturbing the contributions of its sibling batches. -/
theorem C7_error_handling (oracle : Nat → BatchResult) (msg errText : String)
    (status : Nat) (body : List Ticker24) (j : Nat) (emsg : String)
    (s1 s4 : Nat) (s : String) :
    (handler (TickerFetchResult.netFail msg) oracle).status = 500
    ∧ (handler (TickerFetchResult.netFail msg) oracle).records? = none
    ∧ (handler (TickerFetchResult.netFail msg) oracle).message? = some msg
    ∧ (handler (TickerFetchResult.netFail msg) oracle).logs?
        = some (preStep1Logs ++ ["FATAL ERROR: " ++ msg])
    ∧ (handler (TickerFetchResult.httpFail status errText) oracle).status = 500
    ∧ (handler (TickerFetchResult.httpFail status errText) oracle).records? = none
    ∧ (handler (TickerFetchResult.httpFail status errText) oracle).message?
        = some (httpFailMessage status errText)
    ∧ (handler (TickerFetchResult.httpFail status errText) oracle).logs?
        = some (preStep1Logs ++ ["FATAL ERROR: " ++ httpFailMessage status errText])
    ∧ (handler (TickerFetchResult.ok body) oracle).status = 200
    ∧ (handler (TickerFetchResult.ok body) oracle).records?
        = some (mergedRecords body (runBatches body oracle))
    ∧ (handler (TickerFetchResult.ok body) oracle).debugStatus?
        = some (if (runBatches body oracle).errs.length > 0 then "Partial" else "Success")
    ∧ (j < (symbolBatches body).length → oracle j = BatchResult.threw emsg →
        ("B" ++ toString j ++ "-Err:" ++ emsg) ∈ (runBatches body oracle).errs
          ∧ (handler (TickerFetchResult.ok body) oracle).debugStatus? = some "Partial")
    ∧ (j < (symbolBatches body).length →
        oracle j = BatchResult.done (Except.error s1) (Except.error s4) →
        ("B" ++ toString j ++ "-1h:" ++ toString s1) ∈ (runBatches body oracle).errs
          ∧ ("B" ++ toString j ++ "-4h:" ++ toString s4) ∈ (runBatches body oracle).errs)
    ∧ okItems1h (BatchResult.threw emsg) = []
    ∧ okItems4h (BatchResult.threw emsg) = []
    ∧ (runBatches body oracle).map1h s
        = lastReported (okItems1hUpTo oracle (symbolBatches body).length) s
    ∧ (runBatches body oracle).map4h s
        = lastReported (okItems4hUpTo oracle (symbolBatches body).length) s := by
  have herr : ∀ (jj : Nat) (e : String), jj < (symbolBatches body).length →
      e ∈ errEntries jj (oracle jj) → e ∈ (runBatches body oracle).errs := by
    intro jj e hj he
    rw [runBatches_eq, runBatchesN_errs]
    exact List.mem_flatten.mpr
      ⟨errEntries jj (oracle jj),
       List.mem_map.mpr ⟨jj, List.mem_range.mpr hj, rfl⟩, he⟩
  refine ⟨rfl, rfl, rfl, rfl, rfl, rfl, rfl, rfl, rfl, rfl, rfl, ?_, ?_, rfl, rfl,
    by rw [runBatches_eq]; exact runBatchesN_map1h oracle _ s,
    by rw [runBatches_eq]; exact runBatchesN_map4h oracle _ s⟩
  · intro hj hthrew
    have hmem : ("B" ++ toString j ++ "-Err:" ++ emsg) ∈ (runBatches body oracle).errs := by
      refine herr j _ hj ?_
      rw [hthrew]
      exact List.mem_singleton.mpr rfl
    refine ⟨hmem, ?_⟩
    have hpos : 0 < (runBatches body oracle).errs.length :=
      List.length_pos_of_mem hmem
    show HandlerResult.debugStatus? _ = _
    simp only [handler, HandlerResult.debugStatus?]
    rw [if_pos hpos]
  · intro hj hdone
    constructor
    · refine herr j _ hj ?_
      rw [hdone]
      simp [errEntries]
    · refine herr j _ hj ?_
      rw [hdone]
      simp [errEntries]

/-- Witness for C7: a two-symbol body (one batch); a 500 on transport
failure, recorded entries and a `Partial` header when the single batch
throws or returns non-ok statuses. -/
theorem C7_error_handling_witness :
    (handler (TickerFetchResult.netFail "ECONNRESET")
        (fun _ => BatchResult.threw "boom")).status = 500
    ∧ ("B" ++ toString 0 ++ "-Err:" ++ "boom")
        ∈ (runBatches
            [⟨"BTCUSDT", 50000, 100, 2, 5⟩, ⟨"ETHUSDT", 3000, 200, 1, 7⟩]
            (fun _ => BatchResult.threw "boom")).errs
    ∧ (handler (TickerFetchResult.ok
          [⟨"BTCUSDT", 50000, 100, 2, 5⟩, ⟨"ETHUSDT", 3000, 200, 1, 7⟩])
        (fun _ => BatchResult.threw "boom")).debugStatus? = some "Partial"
    ∧ ("B" ++ toString 0 ++ "-1h:" ++ toString 418)
        ∈ (runBatches
            [⟨"BTCUSDT", 50000, 100, 2, 5⟩, ⟨"ETHUSDT", 3000, 200, 1, 7⟩]
            (fun _ => BatchResult.done (Except.error 418) (Except.error 500))).errs
    ∧ ("B" ++ toString 0 ++ "-4h:" ++ toString 500)
        ∈ (runBatches
            [⟨"BTCUSDT", 50000, 100, 2, 5⟩, ⟨"ETHUSDT", 3000, 200, 1, 7⟩]
            (fun _ => BatchResult.done (Except.error 418) (Except.error 500))).errs := by
  have hT := C7_error_handling (fun _ => BatchResult.threw "boom") "ECONNRESET" "t"
    418 [⟨"BTCUSDT", 50000, 100, 2, 5⟩, ⟨"ETHUSDT", 3000, 200, 1, 7⟩] 0 "boom"
    418 500 "X"
  have hE := C7_error_handling
    (fun _ => BatchResult.done (Except.error 418) (Except.error 500)) "ECONNRESET"
    "t" 418 [⟨"BTCUSDT", 50000, 100, 2, 5⟩, ⟨"ETHUSDT", 3000, 200, 1, 7⟩] 0 "boom"
    418 500 "X"
  have hTm := hT.2.2.2.2.2.2.2.2.2.2.2.1 (by decide) rfl
  have hEm := hE.2.2.2.2.2.2.2.2.2.2.2.2.1 (by decide) rfl
  exact ⟨hT.1, hTm.1, hTm.2, hEm.1, hEm.2⟩

/-- C8: with `m` nonzero-trade-count symbols, the selected symbols are
partitioned into exactly `⌈min(m, 3000) / 80⌉` batches, each of size 80
except possibly the last (none empty); and the response array has
exactly one record per nonzero-count 24h symbol — all of them, not only
the top-N — with the 1h/4h fields equal to the lookup-map entry for the
record's symbol (`none`, i.e. JSON `null`, when the maps have none). -/
theorem C8_batching (body : List Ticker24) (oracle : Nat → BatchResult)
    (b : List String) (rec : MergedRecord) :
    (symbolBatches body).length
      = (min (body.filter (fun t => decide (t.count > 0))).length TOP_N
          + BATCH_SIZE - 1) / BATCH_SIZE
    ∧ (b ∈ (symbolBatches body).dropLast → b.length = BATCH_SIZE)
    ∧ (b ∈ symbolBatches body → b.length ≤ BATCH_SIZE ∧ b ≠ [])
    ∧ (handler (TickerFetchResult.ok body) oracle).records?
        = some (mergedRecords body (runBatches body oracle))
    ∧ (mergedRecords body (runBatches body oracle)).length
        = (body.filter (fun t => decide (t.count > 0))).length
    ∧ ((mergedRecords body (runBatches body oracle)).map (fun r => r.symbol)).Perm
        ((body.filter (fun t => decide (t.count > 0))).map (fun t => t.symbol))
    ∧ (rec ∈ mergedRecords body (runBatches body oracle) →
        rec.changePercent1h = (runBatches body oracle).map1h rec.symbol
          ∧ rec.changePercent4h = (runBatches body oracle).map4h rec.symbol) := by
  have hlen : (((validSorted body).take TOP_N).map (fun t => t.symbol)).length
      = min TOP_N (body.filter (fun t => decide (t.count > 0))).length := by
    rw [List.length_map, List.length_take]
    unfold validSorted sortByVolumeDesc
    rw [(List.perm_insertionSort _ _).length_eq]
  refine ⟨?_, ?_, ?_, rfl, ?_, ?_, ?_⟩
  · unfold symbolBatches
    rw [chunkArray_length BATCH_SIZE (by decide) _ _ le_rfl, hlen, Nat.min_comm]
  · intro hb
    exact chunkArray_dropLast_length BATCH_SIZE (by decide) _ _ le_rfl b hb
  · intro hb
    exact chunkArray_mem_bounds BATCH_SIZE (by decide) _ _ le_rfl b hb
  · unfold mergedRecords
    rw [List.length_map]
    unfold validSorted sortByVolumeDesc
    exact (List.perm_insertionSort _ _).length_eq
  · unfold mergedRecords
    rw [List.map_map]
    have hcomp : ((fun r : MergedRecord => r.symbol) ∘ fun item : Ticker24 =>
        ({ symbol := item.symbol, price := item.lastPrice, volume := item.quoteVolume,
           changePercent24h := item.priceChangePercent,
           changePercent1h := (runBatches body oracle).map1h item.symbol,
           changePercent4h := (runBatches body oracle).map4h item.symbol } : MergedRecord))
        = fun t : Ticker24 => t.symbol := rfl
    rw [hcomp]
    unfold validSorted sortByVolumeDesc
    exact (List.perm_insertionSort _ _).map _
  · intro h
    obtain ⟨item, hmem, hrec⟩ := List.mem_map.mp h
    subst hrec
    exact ⟨rfl, rfl⟩

/-- The 81-symbol body used by the C8 witness (all alive, equal
volumes, so the stable sort keeps the order). -/
def c8Body : List Ticker24 :=
  (List.range 81).map (fun i => ⟨"S" ++ toString i, 1, 1, 1, 1⟩)

/-- The oracle used by the C8 witness. -/
def c8Oracle : Nat → BatchResult :=
  fun _ => BatchResult.done (Except.ok [⟨"S0", 5⟩]) (Except.ok [⟨"S0", 6⟩])

/-- Witness for C8: 81 symbols make `⌈81/80⌉ = 2` batches — the first
of size 80, the second a singleton — and the merged array carries the
lookup values for `S0`. -/
theorem C8_batching_witness :
    (symbolBatches c8Body).length
      = (min (c8Body.filter (fun t => decide (t.count > 0))).length TOP_N
          + BATCH_SIZE - 1) / BATCH_SIZE
    ∧ ((List.range 80).map (fun i => "S" ++ toString i)).length = BATCH_SIZE
    ∧ (((List.range 80).map (fun i => "S" ++ toString i)).length ≤ BATCH_SIZE
        ∧ (List.range 80).map (fun i => "S" ++ toString i) ≠ [])
    ∧ (mergedRecords c8Body (runBatches c8Body c8Oracle)).length
        = (c8Body.filter (fun t => decide (t.count > 0))).length
    ∧ ((⟨"S0", 1, 1, 1, some 5, some 6⟩ : MergedRecord).changePercent1h
          = (runBatches c8Body c8Oracle).map1h
              (⟨"S0", 1, 1, 1, some 5, some 6⟩ : MergedRecord).symbol
        ∧ (⟨"S0", 1, 1, 1, some 5, some 6⟩ : MergedRecord).changePercent4h
          = (runBatches c8Body c8Oracle).map4h
              (⟨"S0", 1, 1, 1, some 5, some 6⟩ : MergedRecord).symbol) := by
  have h := C8_batching c8Body c8Oracle
    ((List.range 80).map (fun i => "S" ++ toString i))
    ⟨"S0", 1, 1, 1, some 5, some 6⟩
  exact ⟨h.1, h.2.1 (by decide), h.2.2.1 (by decide), h.2.2.2.2.1,
    h.2.2.2.2.2.2 (by decide)⟩
